import Mathlib

/-!
Shallow embedding of the favicon cache engine of `searx/favicons/cache.py`.

The embedding covers the three cache backends:

* `FaviconCacheSQLite` — the persistent backend.  The SQLite tables `blobs`
  and `blob_map` are modelled as lists of rows; each SQL statement that the
  source executes is translated to the corresponding list transformation
  (primary-key semantics are modelled by first-occurrence update, which agrees
  with SQL on tables satisfying the primary-key constraint).  Row order of the
  SQL `ORDER BY bm.m_time ASC` scan is modelled by a stable insertion sort
  (SQL leaves the order of ties unspecified; the model fixes one such order).
* `FaviconCacheMEM` — the in-memory backend; its two Python dicts are
  modelled as association lists with first-occurrence update.
* `FaviconCacheNull` — the null backend, which keeps no state at all.

The content digest `hashlib.sha256(data).hexdigest()` is a library function,
so the model is parameterized by an abstract digest type `Δ` together with a
digest function `hash : Bytes → Δ`.  The source stores the sentinel constant
`FALLBACK_ICON` (a `bytes` value) in the digest column `sha256`; since the
column's value domain is abstracted to `Δ`, the sentinel as it appears in the
digest column is a parameter `FALLBACK_SHA : Δ`.  The facts used about the
real digest (a hex digest never equals the sentinel, equal contents have equal
digests) appear as explicit hypotheses where needed.
-/

/-- Byte strings (Python `bytes`) are modelled as lists of byte values. -/
abbrev Bytes := List Nat

/-- Source constant `FALLBACK_ICON = b"FALLBACK_ICON"` (the byte values of the
ASCII string FALLBACK_ICON). -/
def FALLBACK_ICON : Bytes := [70, 65, 76, 76, 66, 65, 67, 75, 95, 73, 67, 79, 78]

/-- `FaviconCacheConfig` (pydantic model in the source): the fields used by the
cache engine, with the source's defaults.  `db_type` and `db_url` select and
locate the backend and play no role in the claims. -/
structure FaviconCacheConfig where
  HOLD_TIME : Int := 60 * 60 * 24 * 30
  LIMIT_TOTAL_BYTES : Nat := 1024 * 1024 * 1024
  BLOB_MAX_BYTES : Nat := 1024 * 10
  MAINTENANCE_PERIOD : Int := 60 * 60
  MAINTENANCE_MODE : String := "auto"
deriving DecidableEq

/-- A row of the `blobs` table (DDL_BLOBS): PRIMARY KEY (sha256). -/
structure BlobsRow (Δ : Type) where
  sha256 : Δ
  bytes_c : Nat
  mime : String
  data : Bytes
deriving DecidableEq

/-- A row of the `blob_map` table (DDL_BLOB_MAP): PRIMARY KEY (resolver,
authority); `m_time` defaults to the current unix epoch time on insert. -/
structure BlobMapRow (Δ : Type) where
  m_time : Int
  sha256 : Δ
  resolver : String
  authority : String
deriving DecidableEq

/-- State of the SQLite database behind `FaviconCacheSQLite`: the two tables,
plus the persisted `LAST_MAINTENANCE` property. -/
structure DBState (Δ : Type) where
  blobs : List (BlobsRow Δ)
  blob_map : List (BlobMapRow Δ)
  last_maintenance : Int
deriving DecidableEq

variable {Δ : Type} [DecidableEq Δ]

/-- The empty database (freshly created tables). -/
def DBState.empty (lastM : Int) : DBState Δ := ⟨[], [], lastM⟩

/-- Modelled from the spec: the persisted properties table of
`sqlitedb.SQLiteAppl` (not under src/) holds the `LAST_MAINTENANCE` property;
`self.properties.set("LAST_MAINTENANCE", "")` stamps it with the current
time, and `self.properties.m_time("LAST_MAINTENANCE")` reads that time back.
The spec describes it as the persisted last-maintenance-time used by the
"due" check.  We model it as the `last_maintenance` field of the state. -/
def set_LAST_MAINTENANCE (db : DBState Δ) (now : Int) : DBState Δ :=
  { db with last_maintenance := now }

/-- `FaviconCacheSQLite.next_maintenance_time`: `MAINTENANCE_PERIOD +
properties.m_time("LAST_MAINTENANCE")`. -/
def next_maintenance_time (cfg : FaviconCacheConfig) (db : DBState Δ) : Int :=
  cfg.MAINTENANCE_PERIOD + db.last_maintenance

/-- `SQL_INSERT_BLOBS`: `INSERT INTO blobs (sha256, bytes_c, mime, data)
VALUES (?,?,?,?) ON CONFLICT (sha256) DO NOTHING`. -/
def sql_insert_blobs (db : DBState Δ) (sha : Δ) (bytes_c : Nat) (mime : String)
    (data : Bytes) : DBState Δ :=
  if db.blobs.any (fun b => decide (b.sha256 = sha)) then db
  else { db with blobs := db.blobs ++ [⟨sha, bytes_c, mime, data⟩] }

/-- Row list update for `SQL_INSERT_BLOB_MAP`: `INSERT INTO blob_map (sha256,
resolver, authority) VALUES (?,?,?) ON CONFLICT DO UPDATE SET
sha256=excluded.sha256, m_time=strftime('%s','now')`.  On conflict with the
primary key (resolver, authority) the existing row's `sha256` and `m_time`
are updated in place; otherwise a fresh row with `m_time = now` is appended.
(The table's primary key guarantees at most one matching row; the model
updates the first occurrence.) -/
def upsertBlobMapRows (now : Int) (sha : Δ) (resolver authority : String) :
    List (BlobMapRow Δ) → List (BlobMapRow Δ)
  | [] => [⟨now, sha, resolver, authority⟩]
  | m :: ms =>
    if m.resolver = resolver ∧ m.authority = authority then
      { m with sha256 := sha, m_time := now } :: ms
    else
      m :: upsertBlobMapRows now sha resolver authority ms

/-- `SQL_INSERT_BLOB_MAP` applied to the database state. -/
def sql_insert_blob_map (db : DBState Δ) (now : Int) (sha : Δ)
    (resolver authority : String) : DBState Δ :=
  { db with blob_map := upsertBlobMapRows now sha resolver authority db.blob_map }

/-- Maintenance step 1: `DELETE FROM blob_map WHERE cast(m_time as integer) <
cast(strftime('%s','now') as integer) - HOLD_TIME`. -/
def maintenance_drop_aged (cfg : FaviconCacheConfig) (now : Int)
    (db : DBState Δ) : DBState Δ :=
  { db with blob_map :=
      db.blob_map.filter (fun m => !decide (m.m_time < now - cfg.HOLD_TIME)) }

/-- Maintenance step 2, `SQL_DROP_LEFTOVER_BLOBS`: delete the rows of `blobs`
whose `sha256` no longer occurs in `blob_map` (LEFT JOIN with NULL test). -/
def maintenance_drop_leftover (db : DBState Δ) : DBState Δ :=
  { db with blobs :=
      db.blobs.filter (fun b => db.blob_map.any (fun m => decide (m.sha256 = b.sha256))) }

/-- `SELECT SUM(bytes_c) FROM blobs` (with `or 0` for the NULL sum of an empty
table). -/
def total_bytes (db : DBState Δ) : Nat := (db.blobs.map (fun b => b.bytes_c)).sum

/-- Stable insertion of a `blob_map` row into a list sorted by `m_time`. -/
def insertByMTime (m : BlobMapRow Δ) : List (BlobMapRow Δ) → List (BlobMapRow Δ)
  | [] => [m]
  | x :: xs => if m.m_time < x.m_time then m :: x :: xs else x :: insertByMTime m xs

/-- Stable sort of `blob_map` rows by `m_time` ascending (`ORDER BY bm.m_time
ASC`; SQL leaves the relative order of ties unspecified, the model keeps the
list order). -/
def sortByMTime : List (BlobMapRow Δ) → List (BlobMapRow Δ)
  | [] => []
  | x :: xs => insertByMTime x (sortByMTime xs)

/-- `SQL_ITER_BLOBS_SHA256_BYTES_C`: `SELECT b.sha256, b.bytes_c FROM blobs b
JOIN blob_map bm ON b.sha256 = bm.sha256 ORDER BY bm.m_time ASC`.  Note that
this is a join: a blob referenced by several mapping rows yields one result
row per referencing mapping. -/
def iterBlobsSha256BytesC (db : DBState Δ) : List (Δ × Nat) :=
  (sortByMTime db.blob_map).filterMap (fun m =>
    (db.blobs.find? (fun b => decide (b.sha256 = m.sha256))).map
      (fun b => (b.sha256, b.bytes_c)))

/-- The `sha_list` accumulation loop of `FaviconCacheSQLite.maintenance`:
walk the scan, append each row's `sha256` and add its `bytes_c` to the running
count `c`, stopping right after `c` strictly exceeds the excess `x`.  The
recursion carries the remaining excess `x - c`. -/
def selectDropList : List (Δ × Nat) → Nat → List Δ
  | [], _ => []
  | p :: rest, x => if x < p.2 then [p.1] else p.1 :: selectDropList rest (x - p.2)

/-- Maintenance step 3: if the total blob bytes exceed `LIMIT_TOTAL_BYTES`,
delete the blobs collected by the accumulation loop, together with every
`blob_map` row whose `sha256` is in the collected list (the two `DELETE ...
WHERE sha256 IN (...)` statements, guarded by `if sha_list:`). -/
def maintenance_drop_oversize (cfg : FaviconCacheConfig) (db : DBState Δ) :
    DBState Δ :=
  if cfg.LIMIT_TOTAL_BYTES < total_bytes db then
    let x := total_bytes db - cfg.LIMIT_TOTAL_BYTES
    let sha_list := selectDropList (iterBlobsSha256BytesC db) x
    if sha_list.isEmpty then db
    else
      { db with
        blobs := db.blobs.filter (fun b => decide (b.sha256 ∉ sha_list)),
        blob_map := db.blob_map.filter (fun m => decide (m.sha256 ∉ sha_list)) }
  else db

/-- Maintenance steps 1 and 2 (preceded by stamping `LAST_MAINTENANCE`),
in the order executed by `FaviconCacheSQLite.maintenance`. -/
def maintenance_steps12 (cfg : FaviconCacheConfig) (db : DBState Δ)
    (now : Int) : DBState Δ :=
  maintenance_drop_leftover (maintenance_drop_aged cfg now (set_LAST_MAINTENANCE db now))

/-- `FaviconCacheSQLite.maintenance(force)`: return unchanged when not forced
and not yet due; otherwise stamp `LAST_MAINTENANCE` and run the three
maintenance steps inside one transaction. -/
def maintenance (cfg : FaviconCacheConfig) (db : DBState Δ) (now : Int)
    (force : Bool) : DBState Δ :=
  if force = false ∧ now < next_maintenance_time cfg db then db
  else maintenance_drop_oversize cfg (maintenance_steps12 cfg db now)

/-- `FaviconCacheSQLite.set(resolver, authority, mime, data)`.  Runs the due
automatic maintenance first, then validates the arguments (mime missing,
oversize), then computes the digest (the sentinel for `data is None`), and
finally inserts the blob row (unless sentinel) and upserts the mapping row in
one transaction.  Returns the new state together with the Python return value
(`True`/`False`). -/
def FaviconCacheSQLite.set (hash : Bytes → Δ) (FALLBACK_SHA : Δ)
    (cfg : FaviconCacheConfig) (db : DBState Δ) (now : Int)
    (resolver authority : String) (mime : Option String) (data : Option Bytes) :
    DBState Δ × Bool :=
  let db := if cfg.MAINTENANCE_MODE = "auto" ∧ next_maintenance_time cfg db < now
            then maintenance cfg db now false else db
  if data ≠ none ∧ mime = none then (db, false)
  else
    let bytes_c := (data.getD []).length
    if cfg.BLOB_MAX_BYTES < bytes_c then (db, false)
    else
      let sha := match data with
        | none => FALLBACK_SHA
        | some d => hash d
      let db := if sha ≠ FALLBACK_SHA then
                  sql_insert_blobs db sha bytes_c (mime.getD "") (data.getD [])
                else db
      (sql_insert_blob_map db now sha resolver authority, true)

/-- `FaviconCacheSQLite.__call__(resolver, authority)` (lookup).  The state is
threaded through explicitly so that read-only behavior is a provable fact:
the two executed statements are SELECTs.  Returns `none` (Python `None`,
a miss), `some (none, none)` (a negative hit), or `some (some data, some
mime)` (a positive hit); when the mapping points at a digest with no blob row
the source falls through to `(None, None)`. -/
def FaviconCacheSQLite.call (FALLBACK_SHA : Δ) (db : DBState Δ)
    (resolver authority : String) :
    DBState Δ × Option (Option Bytes × Option String) :=
  match db.blob_map.find? (fun m => decide (m.resolver = resolver ∧ m.authority = authority)) with
  | none => (db, none)
  | some m =>
    if m.sha256 = FALLBACK_SHA then (db, some (none, none))
    else
      match db.blobs.find? (fun b => decide (b.sha256 = m.sha256)) with
      | none => (db, some (none, none))
      | some b => (db, some (some b.data, some b.mime))

/-- State of `FaviconCacheMEM`: the two Python dicts, as association lists.
`_data` maps digests to blob bytes, `_sha_mime` maps the rendered key string
to the pair (digest, mime). -/
structure MemState (Δ : Type) where
  _data : List (Δ × Bytes)
  _sha_mime : List (String × (Δ × Option String))
deriving DecidableEq

/-- The fresh `FaviconCacheMEM` state (`__init__`). -/
def MemState.empty : MemState Δ := ⟨[], []⟩

/-- The rendered dictionary key `f"{resolver}:{authority}"`. -/
def memKey (resolver authority : String) : String := resolver ++ ":" ++ authority

/-- Python dict assignment `d[k] = v` on an association list: replace the
value at the first occurrence of `k`, or append a fresh entry. -/
def dictSet {κ α : Type} [DecidableEq κ] (k : κ) (v : α) :
    List (κ × α) → List (κ × α)
  | [] => [(k, v)]
  | p :: ps => if p.1 = k then (k, v) :: ps else p :: dictSet k v ps

/-- Python dict read `d.get(k)` on an association list. -/
def dictGet {κ α : Type} [DecidableEq κ] (k : κ) (l : List (κ × α)) : Option α :=
  (l.find? (fun p => decide (p.1 = k))).map (fun p => p.2)

/-- `FaviconCacheMEM.set`: a `None` data is replaced by `FALLBACK_ICON` with
mime forced to `None`; data with a `None` mime is rejected (`return`, Python
value `None`); otherwise both dicts are updated.  The method never returns a
boolean; its Python return value is always `None`, modelled as
`(none : Option Bool)`. -/
def FaviconCacheMEM.set (hash : Bytes → Δ) (s : MemState Δ)
    (resolver authority : String) (mime : Option String) (data : Option Bytes) :
    MemState Δ × Option Bool :=
  match data, mime with
  | none, _ =>
    let data := FALLBACK_ICON
    let mime : Option String := none
    let digest := hash data
    (⟨dictSet digest data s._data, dictSet (memKey resolver authority) (digest, mime) s._sha_mime⟩, none)
  | some _, none => (s, none)
  | some d, some m =>
    let digest := hash d
    (⟨dictSet digest d s._data, dictSet (memKey resolver authority) (digest, some m) s._sha_mime⟩, none)

/-- `FaviconCacheMEM.__call__` (lookup), state threaded as for the SQLite
backend.  A stored data equal to `FALLBACK_ICON` is turned back into `None`. -/
def FaviconCacheMEM.call (s : MemState Δ) (resolver authority : String) :
    MemState Δ × Option (Option Bytes × Option String) :=
  match dictGet (memKey resolver authority) s._sha_mime with
  | none => (s, none)
  | some (sha, mime) =>
    let data := dictGet sha s._data
    let data := if data = some FALLBACK_ICON then none else data
    (s, some (data, mime))

/-- `FaviconCacheNull.__call__`: always `None` (a miss).  The null backend
keeps no state at all (`__init__` stores nothing). -/
def FaviconCacheNull.call (resolver authority : String) :
    Option (Option Bytes × Option String) :=
  none

/-- `FaviconCacheNull.set`: does nothing; the Python return value is `None`
(not a boolean). -/
def FaviconCacheNull.set (resolver authority : String) (mime : Option String)
    (data : Option Bytes) : Option Bool :=
  none

/-- The invariant of claim C2: every `blob_map` row whose digest is not the
sentinel references an existing `blobs` row. -/
def mappingBlobInvariant (FALLBACK_SHA : Δ) (db : DBState Δ) : Prop :=
  ∀ m ∈ db.blob_map, m.sha256 ≠ FALLBACK_SHA →
    ∃ b ∈ db.blobs, b.sha256 = m.sha256

/-- One step of first-occurrence deduplication of the maintenance scan by
digest, keeping the first (oldest `m_time`) occurrence of each digest. -/
def dedupByShaAux (seen : List Δ) : List (Δ × Nat) → List (Δ × Nat)
  | [] => []
  | p :: rest =>
    if p.1 ∈ seen then dedupByShaAux seen rest
    else p :: dedupByShaAux (p.1 :: seen) rest

/-- First-occurrence deduplication of the maintenance scan by digest. -/
def dedupBySha (l : List (Δ × Nat)) : List (Δ × Nat) := dedupByShaAux [] l

/-- Formalization of the eviction scan as worded by claim C4 and the spec:
scan the remaining *blobs* — each blob once, with its byte count counted
once — ordered by the oldest referencing mapping's last-write time ascending,
and accumulate until the excess over the limit is covered.  (The deduplicated
join realizes exactly this order: the first occurrence of a digest in the
`m_time`-sorted join is its oldest referencing mapping.) -/
def spec_select (cfg : FaviconCacheConfig) (db : DBState Δ) : List Δ :=
  selectDropList (dedupBySha (iterBlobsSha256BytesC db))
    (total_bytes db - cfg.LIMIT_TOTAL_BYTES)

/-- The statement of claim C4 at a given configuration, state and time: when
(after the age and orphan steps) the total persisted blob bytes exceed the
limit, maintenance deletes exactly the spec-selected set of blobs together
with their mapping rows. -/
def claimC4Statement (cfg : FaviconCacheConfig) (db : DBState Δ) (now : Int) :
    Prop :=
  cfg.LIMIT_TOTAL_BYTES < total_bytes (maintenance_steps12 cfg db now) →
    (maintenance cfg db now true).blobs
        = (maintenance_steps12 cfg db now).blobs.filter
            (fun b => decide (b.sha256 ∉ spec_select cfg (maintenance_steps12 cfg db now)))
      ∧ (maintenance cfg db now true).blob_map
        = (maintenance_steps12 cfg db now).blob_map.filter
            (fun m => decide (m.sha256 ∉ spec_select cfg (maintenance_steps12 cfg db now)))

instance (cfg : FaviconCacheConfig) (db : DBState Δ) (now : Int) :
    Decidable (claimC4Statement cfg db now) := by
  unfold claimC4Statement; infer_instance

instance (FALLBACK_SHA : Δ) (db : DBState Δ) :
    Decidable (mappingBlobInvariant FALLBACK_SHA db) := by
  unfold mappingBlobInvariant; infer_instance

/-! ### Concrete instantiation used by witnesses and counterexamples

The digest domain is instantiated as `Option Bytes` with `some` as the digest
function and `none` as the sentinel: `some` is injective and never equal to
`none`, the two facts that hold of the real pair (sha256 hexdigest strings
versus the `FALLBACK_ICON` bytes value). -/

abbrev ΔW := Option Bytes

/-- Concrete digest function: injective, never the sentinel. -/
def hashW : Bytes → ΔW := some

/-- Concrete sentinel digest. -/
def fbW : ΔW := none

/-- Test configuration: hold time 1000 s, total limit 100 bytes, per-blob
ceiling 50 bytes, maintenance off (so that `set` calls do not trigger it). -/
def cfgOff : FaviconCacheConfig :=
  { HOLD_TIME := 1000, LIMIT_TOTAL_BYTES := 100, BLOB_MAX_BYTES := 50,
    MAINTENANCE_PERIOD := 3600, MAINTENANCE_MODE := "off" }

/-- Test configuration with automatic maintenance. -/
def cfgAuto : FaviconCacheConfig := { cfgOff with MAINTENANCE_MODE := "auto" }

/-- Test configuration with a 30-byte total limit. -/
def cfg30 : FaviconCacheConfig := { cfgOff with LIMIT_TOTAL_BYTES := 30 }

/-- Test configuration with a 60-byte per-blob ceiling. -/
def cfg60 : FaviconCacheConfig := { cfgOff with BLOB_MAX_BYTES := 60 }

/-- Test configuration with a 1-byte per-blob ceiling. -/
def cfgTiny : FaviconCacheConfig := { cfgOff with BLOB_MAX_BYTES := 1 }

/-- A 40-byte content. -/
def bytesA : Bytes := List.replicate 40 1

/-- A second, distinct 40-byte content. -/
def bytesB : Bytes := List.replicate 40 2

/-- A third, distinct 40-byte content. -/
def bytesC : Bytes := List.replicate 40 3

/-- A 60-byte content. -/
def bytesD : Bytes := List.replicate 60 4

/-- A second, distinct 60-byte content. -/
def bytesE : Bytes := List.replicate 60 5

/-- Reachable state with a blob shared by two mappings: `bytesA` stored under
("r","a") at t=0 and ("r","b") at t=1, and `bytesB` under ("r","c") at t=2. -/
def dbShared : DBState ΔW :=
  (FaviconCacheSQLite.set hashW fbW cfg30
    ((FaviconCacheSQLite.set hashW fbW cfg30
      ((FaviconCacheSQLite.set hashW fbW cfg30 (DBState.empty 0)
        0 "r" "a" (some "image/png") (some bytesA)).1)
      1 "r" "b" (some "image/png") (some bytesA)).1)
    2 "r" "c" (some "image/png") (some bytesB)).1

/-- Reachable state for the spec's concrete eviction scenario: three distinct
40-byte contents stored under three distinct keys at t=0, 1, 2 (total 120
bytes, limit 100). -/
def dbScenario : DBState ΔW :=
  (FaviconCacheSQLite.set hashW fbW cfgOff
    ((FaviconCacheSQLite.set hashW fbW cfgOff
      ((FaviconCacheSQLite.set hashW fbW cfgOff (DBState.empty 0)
        0 "r" "a" (some "image/png") (some bytesA)).1)
      1 "r" "b" (some "image/png") (some bytesB)).1)
    2 "r" "c" (some "image/png") (some bytesC)).1

/-- Reachable state where the same content was stored under two keys with
different mime types ("image/png" first, then "image/gif"). -/
def dbMime : DBState ΔW :=
  (FaviconCacheSQLite.set hashW fbW cfgOff
    ((FaviconCacheSQLite.set hashW fbW cfgOff (DBState.empty 0)
      0 "r" "a" (some "image/png") (some bytesA)).1)
    1 "r" "b" (some "image/gif") (some bytesA)).1

/-- Reachable state with two 60-byte blobs (120 bytes total, limit 100), both
mappings fresh. -/
def dbSixty : DBState ΔW :=
  (FaviconCacheSQLite.set hashW fbW cfg60
    ((FaviconCacheSQLite.set hashW fbW cfg60 (DBState.empty 0)
      0 "r" "a" (some "image/png") (some bytesD)).1)
    1 "r" "b" (some "image/png") (some bytesE)).1

/-- In-memory state after positively storing the `FALLBACK_ICON` byte string
itself as icon content. -/
def memFB : MemState ΔW :=
  (FaviconCacheMEM.set hashW MemState.empty "r" "a" (some "image/png")
    (some FALLBACK_ICON)).1

/-- In-memory state after a negative store under the key ("a:b", "c"), whose
rendered dictionary key collides with the distinct key ("a", "b:c"). -/
def memCollide : MemState ΔW :=
  (FaviconCacheMEM.set hashW MemState.empty "a:b" "c" none none).1

/-- In-memory state after storing a 2-byte content (oversize for
`cfgTiny.BLOB_MAX_BYTES = 1`). -/
def memBig : MemState ΔW :=
  (FaviconCacheMEM.set hashW MemState.empty "r" "a" (some "image/png")
    (some [9, 9])).1

/-! ### Theorems -/

/-- C9: for every backend, lookup never modifies the cache state; in
particular a read never refreshes a mapping entry's last-write timestamp, so
eviction age is determined solely by writes.  (The null backend keeps no
state at all, so only the SQLite and in-memory backends carry state to
preserve; both lookups execute reads only.) -/
theorem C9_lookup_never_modifies_state (FALLBACK_SHA : Δ) (db : DBState Δ)
    (s : MemState Δ) (resolver authority : String) :
    (FaviconCacheSQLite.call FALLBACK_SHA db resolver authority).1 = db
      ∧ (FaviconCacheMEM.call s resolver authority).1 = s := by
  constructor
  · unfold FaviconCacheSQLite.call
    split
    · rfl
    · split
      · rfl
      · split <;> rfl
  · unfold FaviconCacheMEM.call
    split <;> rfl

/-- C8 counterexample: the null backend's store does not return the boolean
True — its Python return value is None. -/
theorem C8_counterexample :
    FaviconCacheNull.set "r" "a" (some "image/png") (some bytesA) = none
      ∧ (none : Option Bool) ≠ some true := by decide

/-- C8 amended: only the SQLite backend's store returns a boolean success
value — True exactly when the arguments are valid (data absent, or mime
present and the content within the per-blob ceiling).  The null and
in-memory backends' store returns None (no success value); the null backend
persists nothing (it keeps no state) and its lookup always returns Miss. -/
theorem C8_amended :
    (∀ resolver authority : String,
        FaviconCacheNull.call resolver authority = none)
  ∧ (∀ (resolver authority : String) (mime : Option String) (data : Option Bytes),
        FaviconCacheNull.set resolver authority mime data = none)
  ∧ (∀ (hash : Bytes → Δ) (s : MemState Δ) (resolver authority : String)
        (mime : Option String) (data : Option Bytes),
        (FaviconCacheMEM.set hash s resolver authority mime data).2 = none)
  ∧ (∀ (hash : Bytes → Δ) (FALLBACK_SHA : Δ) (cfg : FaviconCacheConfig)
        (db : DBState Δ) (now : Int) (resolver authority : String)
        (mime : Option String) (data : Option Bytes),
        (FaviconCacheSQLite.set hash FALLBACK_SHA cfg db now resolver authority mime data).2 = true
          ↔ ¬(data ≠ none ∧ mime = none)
            ∧ (data.getD []).length ≤ cfg.BLOB_MAX_BYTES) := by
  refine ⟨fun _ _ => rfl, fun _ _ _ _ => rfl, fun hash s r a mime data => ?_, ?_⟩
  · unfold FaviconCacheMEM.set
    split <;> rfl
  · intro hash FALLBACK_SHA cfg db now r a mime data
    by_cases h1 : data ≠ none ∧ mime = none
    · simp [FaviconCacheSQLite.set, h1]
    · by_cases h2 : cfg.BLOB_MAX_BYTES < (data.getD []).length
      · simp [FaviconCacheSQLite.set, h1, h2, Nat.not_le_of_lt h2]
      · simp [FaviconCacheSQLite.set, h1, h2, Nat.le_of_not_lt h2]

/-- C10: the SQLite backend's store performs the automatic-maintenance due
check and, if due, runs the full maintenance sweep before validating its
arguments; consequently a store call that returns failure (mime missing, or
content oversize) still leaves the state that maintenance produced. -/
theorem C10_failed_store_still_runs_maintenance (hash : Bytes → Δ)
    (FALLBACK_SHA : Δ) (cfg : FaviconCacheConfig) (db : DBState Δ) (now : Int)
    (resolver authority : String) (mime : Option String) (d : Bytes)
    (h : mime = none ∨ cfg.BLOB_MAX_BYTES < d.length) :
    FaviconCacheSQLite.set hash FALLBACK_SHA cfg db now resolver authority mime (some d)
      = (if cfg.MAINTENANCE_MODE = "auto" ∧ next_maintenance_time cfg db < now
         then maintenance cfg db now false else db, false) := by
  rcases h with h | h
  · subst h
    simp [FaviconCacheSQLite.set]
  · rcases mime with _ | m
    · simp [FaviconCacheSQLite.set]
    · simp [FaviconCacheSQLite.set, h]

/-- C10 witness: a concrete oversize store on a due-for-maintenance state
with an aged mapping row returns failure, yet evicts the aged row and stamps
the last-maintenance time. -/
theorem C10_witness :
    FaviconCacheSQLite.set hashW fbW cfgAuto
        ⟨[⟨some bytesA, 40, "image/png", bytesA⟩], [⟨0, some bytesA, "r", "old"⟩], 0⟩
        5000 "r" "x" (some "image/png") (some bytesD)
      = (maintenance cfgAuto
          ⟨[⟨some bytesA, 40, "image/png", bytesA⟩], [⟨0, some bytesA, "r", "old"⟩], 0⟩
          5000 false, false)
    ∧ (maintenance cfgAuto
        ⟨[⟨some bytesA, 40, "image/png", bytesA⟩], [⟨0, some bytesA, "r", "old"⟩], 0⟩
        5000 false).blob_map = []
    ∧ (maintenance cfgAuto
        ⟨[⟨some bytesA, 40, "image/png", bytesA⟩], [⟨0, some bytesA, "r", "old"⟩], 0⟩
        5000 false).last_maintenance = 5000
    ∧ cfgAuto.BLOB_MAX_BYTES < bytesD.length := by
  refine ⟨?_, by decide, by decide, by decide⟩
  exact C10_failed_store_still_runs_maintenance hashW fbW cfgAuto _ 5000 "r" "x"
    (some "image/png") bytesD (Or.inr (by decide))

/-- C1 counterexample: store-then-lookup does not return exactly
PositiveHit(data, mime) for every backend.  The null backend stores nothing
and always misses; the in-memory backend positively stores the byte string
FALLBACK_ICON but looks it up as (None, mime); the SQLite backend, after the
same content was stored under another key with a different mime, returns the
first-stored mime instead of the one given to store.  All data fits the
per-blob ceiling and all mimes are non-null. -/
theorem C1_counterexample :
    (FaviconCacheNull.set "r" "a" (some "image/png") (some bytesA) = none
      ∧ FaviconCacheNull.call "r" "a" ≠ some (some bytesA, some "image/png"))
  ∧ ((FaviconCacheMEM.call memFB "r" "a").2 = some (none, some "image/png")
      ∧ (FaviconCacheMEM.call memFB "r" "a").2 ≠ some (some FALLBACK_ICON, some "image/png")
      ∧ FALLBACK_ICON.length ≤ cfgOff.BLOB_MAX_BYTES)
  ∧ ((FaviconCacheSQLite.set hashW fbW cfgOff
        ((FaviconCacheSQLite.set hashW fbW cfgOff (DBState.empty 0)
          0 "r" "a" (some "image/png") (some bytesA)).1)
        1 "r" "b" (some "image/gif") (some bytesA)).2 = true
      ∧ (FaviconCacheSQLite.call fbW dbMime "r" "b").2 = some (some bytesA, some "image/png")
      ∧ (FaviconCacheSQLite.call fbW dbMime "r" "b").2 ≠ some (some bytesA, some "image/gif")
      ∧ bytesA.length ≤ cfgOff.BLOB_MAX_BYTES) := by decide

/-- C3 counterexample: the null backend returns Miss (not NegativeHit) after
store(key, null, null); and in the in-memory backend a lookup on the
never-stored key ("a", "b:c") returns NegativeHit rather than Miss, because
the rendered dictionary key collides with the stored distinct key
("a:b", "c"). -/
theorem C3_counterexample :
    (FaviconCacheNull.set "r" "a" none none = none
      ∧ FaviconCacheNull.call "r" "a" = none
      ∧ FaviconCacheNull.call "r" "a" ≠ some (none, none))
  ∧ ((("a:b" : String), ("c" : String)) ≠ (("a" : String), ("b:c" : String))
      ∧ (FaviconCacheMEM.call memCollide "a" "b:c").2 = some (none, none)
      ∧ (FaviconCacheMEM.call memCollide "a" "b:c").2 ≠ none) := by decide

/-- C4 counterexample: on the reachable state `dbShared` (one 40-byte blob
referenced by two mappings written at t=0 and t=1, another 40-byte blob
referenced at t=2, total 80 bytes, limit 30), maintenance does not delete the
per-blob-scan selection described by the claim: the code's join-based loop
counts the doubly-referenced blob twice, stops early, and leaves the second
blob (40 bytes, still above the 30-byte limit), whereas the claimed scan
would select both blobs. -/
theorem C4_counterexample : ¬ claimC4Statement cfg30 dbShared 3 := by decide

/-- C5 counterexample: on the reachable state `dbSixty` (two 60-byte blobs,
both mappings fresh, limit 100), maintenance evicts a blob that is still
referenced by a non-aged mapping row — the size-limit step deletes it — so
"every blob row still referenced by at least one non-aged mapping row
survives" fails as stated. -/
theorem C5_counterexample :
    ∃ b ∈ dbSixty.blobs,
      (∃ m ∈ dbSixty.blob_map, m.sha256 = b.sha256
          ∧ ¬(m.m_time < 2 - cfg60.HOLD_TIME))
        ∧ b ∉ (maintenance cfg60 dbSixty 2 true).blobs := by decide

/-- C7 counterexample: the in-memory backend does not reject oversize
content — with a per-blob ceiling of 1 byte, storing a 2-byte content does
not return failure (the Python return value is None, not False) and the
content is written and subsequently looked up. -/
theorem C7_counterexample :
    cfgTiny.BLOB_MAX_BYTES < ([9, 9] : Bytes).length
  ∧ (FaviconCacheMEM.set hashW MemState.empty "r" "a" (some "image/png") (some [9, 9])).2 = none
  ∧ (FaviconCacheMEM.set hashW MemState.empty "r" "a" (some "image/png") (some [9, 9])).2 ≠ some false
  ∧ (FaviconCacheMEM.call memBig "r" "a").2 = some (some [9, 9], some "image/png") := by decide

/-! ### Helper lemmas about the list-level operations -/

theorem find?_upsertBlobMapRows_self (now : Int) (sha : Δ) (r a : String)
    (l : List (BlobMapRow Δ)) :
    ∃ mr, (upsertBlobMapRows now sha r a l).find?
        (fun m => decide (m.resolver = r ∧ m.authority = a)) = some mr
      ∧ mr.sha256 = sha := by
  induction l with
  | nil =>
    refine ⟨⟨now, sha, r, a⟩, ?_, rfl⟩
    simp [upsertBlobMapRows]
  | cons m ms ih =>
    by_cases h : m.resolver = r ∧ m.authority = a
    · refine ⟨{ m with sha256 := sha, m_time := now }, ?_, rfl⟩
      simp [upsertBlobMapRows, h, List.find?_cons_of_pos]
    · obtain ⟨mr, hfind, hsha⟩ := ih
      refine ⟨mr, ?_, hsha⟩
      simpa [upsertBlobMapRows, h, List.find?_cons_of_neg] using hfind

theorem find?_upsertBlobMapRows_other (now : Int) (sha : Δ) (r a r' a' : String)
    (h : ¬(r = r' ∧ a = a')) (l : List (BlobMapRow Δ)) :
    (upsertBlobMapRows now sha r a l).find?
        (fun m => decide (m.resolver = r' ∧ m.authority = a'))
      = l.find? (fun m => decide (m.resolver = r' ∧ m.authority = a')) := by
  induction l with
  | nil =>
    rw [upsertBlobMapRows, List.find?_cons_of_neg _ (by simpa using h)]
  | cons m ms ih =>
    rw [upsertBlobMapRows]
    by_cases hm : m.resolver = r ∧ m.authority = a
    · rw [if_pos hm]
      have hm' : ¬(m.resolver = r' ∧ m.authority = a') := by
        rintro ⟨h1, h2⟩
        exact h ⟨hm.1.symm.trans h1, hm.2.symm.trans h2⟩
      rw [List.find?_cons_of_neg _ (by simpa using hm'),
        List.find?_cons_of_neg _ (by simpa using hm')]
    · rw [if_neg hm]
      by_cases hm' : m.resolver = r' ∧ m.authority = a'
      · rw [List.find?_cons_of_pos _ (by simpa using hm'),
          List.find?_cons_of_pos _ (by simpa using hm')]
      · rw [List.find?_cons_of_neg _ (by simpa using hm'),
          List.find?_cons_of_neg _ (by simpa using hm')]
        exact ih

theorem mem_upsertBlobMapRows (now : Int) (sha : Δ) (r a : String)
    (l : List (BlobMapRow Δ)) (m : BlobMapRow Δ)
    (hm : m ∈ upsertBlobMapRows now sha r a l) :
    m ∈ l ∨ m.sha256 = sha := by
  induction l with
  | nil =>
    simp [upsertBlobMapRows] at hm
    subst hm; exact Or.inr rfl
  | cons x xs ih =>
    by_cases h : x.resolver = r ∧ x.authority = a
    · simp [upsertBlobMapRows, h] at hm
      rcases hm with hm | hm
      · subst hm; exact Or.inr rfl
      · exact Or.inl (List.mem_cons_of_mem _ hm)
    · simp [upsertBlobMapRows, h] at hm
      rcases hm with hm | hm
      · subst hm; exact Or.inl (List.mem_cons_self _ _)
      · rcases ih hm with h' | h'
        · exact Or.inl (List.mem_cons_of_mem _ h')
        · exact Or.inr h'

theorem find?_sql_insert_blobs (db : DBState Δ) (sha : Δ) (bc : Nat)
    (mime : String) (data : Bytes) :
    ∃ b, (sql_insert_blobs db sha bc mime data).blobs.find?
        (fun b => decide (b.sha256 = sha)) = some b
      ∧ b.sha256 = sha
      ∧ (b ∈ db.blobs ∨ b = ⟨sha, bc, mime, data⟩) := by
  unfold sql_insert_blobs
  by_cases h : db.blobs.any (fun b => decide (b.sha256 = sha)) = true
  · have hsome : (db.blobs.find? (fun b => decide (b.sha256 = sha))).isSome := by
      rw [List.find?_isSome]
      obtain ⟨x, hx, hpx⟩ := List.any_eq_true.mp h
      exact ⟨x, hx, hpx⟩
    obtain ⟨b, hb⟩ := Option.isSome_iff_exists.mp hsome
    refine ⟨b, ?_, by simpa using List.find?_some hb,
      Or.inl (List.mem_of_find?_eq_some hb)⟩
    simp [h, hb]
  · have hnone : db.blobs.find? (fun b => decide (b.sha256 = sha)) = none := by
      rw [List.find?_eq_none]
      intro x hx
      have := List.any_eq_false.mp (Bool.not_eq_true _ ▸ h) x hx
      simpa using this
    refine ⟨⟨sha, bc, mime, data⟩, ?_, rfl, Or.inr rfl⟩
    simp [h, List.find?_append, hnone]

theorem sql_insert_blobs_mem_old (db : DBState Δ) (sha : Δ) (bc : Nat)
    (mime : String) (data : Bytes) (b : BlobsRow Δ) (hb : b ∈ db.blobs) :
    b ∈ (sql_insert_blobs db sha bc mime data).blobs := by
  unfold sql_insert_blobs
  by_cases h : db.blobs.any (fun b => decide (b.sha256 = sha)) = true
  · simpa [h] using hb
  · simp [h]
    exact Or.inl hb

theorem sql_insert_blobs_exists (db : DBState Δ) (sha : Δ) (bc : Nat)
    (mime : String) (data : Bytes) :
    ∃ b ∈ (sql_insert_blobs db sha bc mime data).blobs, b.sha256 = sha := by
  obtain ⟨b, hfind, hsha, _⟩ := find?_sql_insert_blobs db sha bc mime data
  exact ⟨b, List.mem_of_find?_eq_some hfind, hsha⟩

theorem dictGet_dictSet_self {κ α : Type} [DecidableEq κ] (k : κ) (v : α)
    (l : List (κ × α)) : dictGet k (dictSet k v l) = some v := by
  induction l with
  | nil => simp [dictSet, dictGet]
  | cons p ps ih =>
    by_cases h : p.1 = k
    · simp [dictSet, h, dictGet]
    · simpa [dictSet, h, dictGet, List.find?_cons_of_neg] using ih

theorem dictGet_dictSet_other {κ α : Type} [DecidableEq κ] (k k' : κ) (v : α)
    (l : List (κ × α)) (h : k' ≠ k) :
    dictGet k' (dictSet k v l) = dictGet k' l := by
  induction l with
  | nil =>
    unfold dictGet
    rw [dictSet, List.find?_cons_of_neg _ (by simpa using Ne.symm h)]
  | cons p ps ih =>
    rw [dictSet]
    by_cases hp : p.1 = k
    · rw [if_pos hp]
      have hpk' : ¬ p.1 = k' := fun hh => h (hh.symm.trans hp)
      unfold dictGet
      rw [List.find?_cons_of_neg _ (by simpa using Ne.symm h),
        List.find?_cons_of_neg _ (by simpa using hpk')]
    · rw [if_neg hp]
      unfold dictGet at ih ⊢
      by_cases hp' : p.1 = k'
      · rw [List.find?_cons_of_pos _ (by simpa using hp'),
          List.find?_cons_of_pos _ (by simpa using hp')]
      · rw [List.find?_cons_of_neg _ (by simpa using hp'),
          List.find?_cons_of_neg _ (by simpa using hp')]
        exact ih

theorem maintenance_steps12_blobs_subset (cfg : FaviconCacheConfig)
    (db : DBState Δ) (now : Int) (b : BlobsRow Δ)
    (hb : b ∈ (maintenance_steps12 cfg db now).blobs) : b ∈ db.blobs :=
  (List.mem_filter.mp hb).1

theorem maintenance_drop_oversize_blobs_subset (cfg : FaviconCacheConfig)
    (db : DBState Δ) (b : BlobsRow Δ)
    (hb : b ∈ (maintenance_drop_oversize cfg db).blobs) : b ∈ db.blobs := by
  by_cases hc : cfg.LIMIT_TOTAL_BYTES < total_bytes db
  · simp only [maintenance_drop_oversize, if_pos hc] at hb
    by_cases hemp : (selectDropList (iterBlobsSha256BytesC db)
        (total_bytes db - cfg.LIMIT_TOTAL_BYTES)).isEmpty = true
    · simpa only [if_pos hemp] using hb
    · simp only [if_neg hemp] at hb
      exact (List.mem_filter.mp hb).1
  · simpa only [maintenance_drop_oversize, if_neg hc] using hb

theorem maintenance_blobs_subset (cfg : FaviconCacheConfig) (db : DBState Δ)
    (now : Int) (force : Bool) (b : BlobsRow Δ)
    (hb : b ∈ (maintenance cfg db now force).blobs) : b ∈ db.blobs := by
  unfold maintenance at hb
  split at hb
  · exact hb
  · exact maintenance_steps12_blobs_subset cfg db now b
      (maintenance_drop_oversize_blobs_subset cfg _ b hb)

/-! ### Preservation of the mapping-blob invariant (claim C2) -/

theorem mappingBlobInvariant_drop_aged (FALLBACK_SHA : Δ)
    (cfg : FaviconCacheConfig) (now : Int) (db : DBState Δ)
    (h : mappingBlobInvariant FALLBACK_SHA db) :
    mappingBlobInvariant FALLBACK_SHA (maintenance_drop_aged cfg now db) := by
  intro m hm hne
  exact h m (List.mem_filter.mp hm).1 hne

theorem mappingBlobInvariant_drop_leftover (FALLBACK_SHA : Δ) (db : DBState Δ)
    (h : mappingBlobInvariant FALLBACK_SHA db) :
    mappingBlobInvariant FALLBACK_SHA (maintenance_drop_leftover db) := by
  intro m hm hne
  obtain ⟨b, hb, he⟩ := h m hm hne
  refine ⟨b, List.mem_filter.mpr ⟨hb, ?_⟩, he⟩
  exact List.any_eq_true.mpr ⟨m, hm, by simp [he]⟩

theorem mappingBlobInvariant_drop_oversize (FALLBACK_SHA : Δ)
    (cfg : FaviconCacheConfig) (db : DBState Δ)
    (h : mappingBlobInvariant FALLBACK_SHA db) :
    mappingBlobInvariant FALLBACK_SHA (maintenance_drop_oversize cfg db) := by
  intro m hm hne
  by_cases hc : cfg.LIMIT_TOTAL_BYTES < total_bytes db
  · simp only [maintenance_drop_oversize, if_pos hc] at hm ⊢
    by_cases hemp : (selectDropList (iterBlobsSha256BytesC db)
        (total_bytes db - cfg.LIMIT_TOTAL_BYTES)).isEmpty = true
    · simp only [if_pos hemp] at hm ⊢
      exact h m hm hne
    · simp only [if_neg hemp] at hm ⊢
      obtain ⟨hm0, hnot⟩ := List.mem_filter.mp hm
      obtain ⟨b, hb, hbe⟩ := h m hm0 hne
      refine ⟨b, List.mem_filter.mpr ⟨hb, ?_⟩, hbe⟩
      simpa [hbe] using hnot
  · simp only [maintenance_drop_oversize, if_neg hc] at hm ⊢
    exact h m hm hne

theorem mappingBlobInvariant_maintenance (FALLBACK_SHA : Δ)
    (cfg : FaviconCacheConfig) (db : DBState Δ) (now : Int) (force : Bool)
    (h : mappingBlobInvariant FALLBACK_SHA db) :
    mappingBlobInvariant FALLBACK_SHA (maintenance cfg db now force) := by
  unfold maintenance
  split
  · exact h
  · exact mappingBlobInvariant_drop_oversize FALLBACK_SHA cfg _
      (mappingBlobInvariant_drop_leftover FALLBACK_SHA _
        (mappingBlobInvariant_drop_aged FALLBACK_SHA cfg now _ h))

theorem mappingBlobInvariant_sql_insert_blobs (FALLBACK_SHA : Δ)
    (db : DBState Δ) (sha : Δ) (bc : Nat) (mime : String) (data : Bytes)
    (h : mappingBlobInvariant FALLBACK_SHA db) :
    mappingBlobInvariant FALLBACK_SHA (sql_insert_blobs db sha bc mime data) := by
  intro m hm hne
  by_cases hc : db.blobs.any (fun b => decide (b.sha256 = sha)) = true
  · simp only [sql_insert_blobs, if_pos hc] at hm ⊢
    exact h m hm hne
  · simp only [sql_insert_blobs, if_neg hc] at hm ⊢
    obtain ⟨b, hb, hbe⟩ := h m hm hne
    exact ⟨b, List.mem_append_left _ hb, hbe⟩

theorem mappingBlobInvariant_sql_insert_blob_map (FALLBACK_SHA : Δ)
    (db : DBState Δ) (now : Int) (sha : Δ) (r a : String)
    (h : mappingBlobInvariant FALLBACK_SHA db)
    (hsha : sha = FALLBACK_SHA ∨ ∃ b ∈ db.blobs, b.sha256 = sha) :
    mappingBlobInvariant FALLBACK_SHA (sql_insert_blob_map db now sha r a) := by
  intro m hm hne
  rcases mem_upsertBlobMapRows now sha r a db.blob_map m hm with hmem | hms
  · exact h m hmem hne
  · rcases hsha with hfb | ⟨b, hb, hbe⟩
    · exact absurd (hms.trans hfb) hne
    · exact ⟨b, hb, hbe.trans hms.symm⟩

theorem mappingBlobInvariant_set (hash : Bytes → Δ) (FALLBACK_SHA : Δ)
    (cfg : FaviconCacheConfig) (db : DBState Δ) (now : Int) (r a : String)
    (mime : Option String) (data : Option Bytes)
    (h : mappingBlobInvariant FALLBACK_SHA db) :
    mappingBlobInvariant FALLBACK_SHA
      ((FaviconCacheSQLite.set hash FALLBACK_SHA cfg db now r a mime data).1) := by
  have h1 : mappingBlobInvariant FALLBACK_SHA
      (if cfg.MAINTENANCE_MODE = "auto" ∧ next_maintenance_time cfg db < now
       then maintenance cfg db now false else db) := by
    split
    · exact mappingBlobInvariant_maintenance FALLBACK_SHA cfg db now false h
    · exact h
  cases data with
  | none =>
    simp only [FaviconCacheSQLite.set]
    split
    · exact h1
    · split
      · exact h1
      · refine mappingBlobInvariant_sql_insert_blob_map FALLBACK_SHA _ now _ r a ?_ (Or.inl rfl)
        rw [if_neg (by simp)]
        exact h1
  | some d =>
    simp only [FaviconCacheSQLite.set]
    split
    · exact h1
    · split
      · exact h1
      · refine mappingBlobInvariant_sql_insert_blob_map FALLBACK_SHA _ now _ r a ?_ ?_
        · by_cases hd : hash d ≠ FALLBACK_SHA
          · rw [if_pos hd]
            exact mappingBlobInvariant_sql_insert_blobs FALLBACK_SHA _ _ _ _ _ h1
          · rw [if_neg hd]
            exact h1
        · by_cases hd : hash d ≠ FALLBACK_SHA
          · rw [if_pos hd]
            exact Or.inr (sql_insert_blobs_exists _ _ _ _ _)
          · rw [if_neg hd]
            exact Or.inl (not_not.mp hd)

/-- C2: in the persistent backend, the invariant "every mapping row whose
digest is not the sentinel references an existing blob row" is preserved by
every maintenance step (stamping plus age-based deletion, orphan deletion,
size-based deletion), by a full maintenance run, and by every store call —
successful or rejected. -/
theorem C2_mapping_invariant (hash : Bytes → Δ) (FALLBACK_SHA : Δ)
    (cfg : FaviconCacheConfig) (db : DBState Δ) (now : Int) (force : Bool)
    (resolver authority : String) (mime : Option String) (data : Option Bytes)
    (h : mappingBlobInvariant FALLBACK_SHA db) :
    mappingBlobInvariant FALLBACK_SHA
        (maintenance_drop_aged cfg now (set_LAST_MAINTENANCE db now))
      ∧ mappingBlobInvariant FALLBACK_SHA (maintenance_steps12 cfg db now)
      ∧ mappingBlobInvariant FALLBACK_SHA (maintenance cfg db now force)
      ∧ mappingBlobInvariant FALLBACK_SHA
          ((FaviconCacheSQLite.set hash FALLBACK_SHA cfg db now
              resolver authority mime data).1) :=
  ⟨mappingBlobInvariant_drop_aged FALLBACK_SHA cfg now _ h,
   mappingBlobInvariant_drop_leftover FALLBACK_SHA _
     (mappingBlobInvariant_drop_aged FALLBACK_SHA cfg now _ h),
   mappingBlobInvariant_maintenance FALLBACK_SHA cfg db now force h,
   mappingBlobInvariant_set hash FALLBACK_SHA cfg db now resolver authority mime data h⟩

/-- C2 witness: the invariant holds on the populated reachable state
`dbShared` and is preserved by a maintenance run at t=5000 (which evicts
aged rows) and by a further store call. -/
theorem C2_witness :
    mappingBlobInvariant fbW
        (maintenance_drop_aged cfgAuto 5000 (set_LAST_MAINTENANCE dbShared 5000))
      ∧ mappingBlobInvariant fbW (maintenance_steps12 cfgAuto dbShared 5000)
      ∧ mappingBlobInvariant fbW (maintenance cfgAuto dbShared 5000 false)
      ∧ mappingBlobInvariant fbW
          ((FaviconCacheSQLite.set hashW fbW cfgAuto dbShared 5000
              "r" "z" (some "image/png") (some bytesC)).1) :=
  C2_mapping_invariant hashW fbW cfgAuto dbShared 5000 false "r" "z"
    (some "image/png") (some bytesC) (by decide)

/-! ### Maintenance-effect lemmas (claim C5) -/

theorem maintenance_runs_eq (cfg : FaviconCacheConfig) (db : DBState Δ)
    (now : Int) (force : Bool)
    (hrun : force = true ∨ ¬ (now < next_maintenance_time cfg db)) :
    maintenance cfg db now force
      = maintenance_drop_oversize cfg (maintenance_steps12 cfg db now) := by
  unfold maintenance
  split
  · rename_i hguard
    rcases hrun with h | h
    · rw [h] at hguard
      simp at hguard
    · exact absurd hguard.2 h
  · rfl

theorem maintenance_drop_oversize_noop (cfg : FaviconCacheConfig)
    (db : DBState Δ) (h : ¬ (cfg.LIMIT_TOTAL_BYTES < total_bytes db)) :
    maintenance_drop_oversize cfg db = db := by
  simp only [maintenance_drop_oversize, if_neg h]

theorem maintenance_drop_oversize_blob_map_subset (cfg : FaviconCacheConfig)
    (db : DBState Δ) (m : BlobMapRow Δ)
    (hm : m ∈ (maintenance_drop_oversize cfg db).blob_map) : m ∈ db.blob_map := by
  by_cases hc : cfg.LIMIT_TOTAL_BYTES < total_bytes db
  · simp only [maintenance_drop_oversize, if_pos hc] at hm
    by_cases hemp : (selectDropList (iterBlobsSha256BytesC db)
        (total_bytes db - cfg.LIMIT_TOTAL_BYTES)).isEmpty = true
    · simpa only [if_pos hemp] using hm
    · simp only [if_neg hemp] at hm
      exact (List.mem_filter.mp hm).1
  · simpa only [maintenance_drop_oversize, if_neg hc] using hm

theorem maintenance_drop_leftover_refs (db : DBState Δ) :
    ∀ b ∈ (maintenance_drop_leftover db).blobs,
      ∃ m ∈ (maintenance_drop_leftover db).blob_map, m.sha256 = b.sha256 := by
  intro b hb
  obtain ⟨hb0, hany⟩ := List.mem_filter.mp hb
  obtain ⟨m, hm, hpe⟩ := List.any_eq_true.mp hany
  exact ⟨m, hm, by simpa using hpe⟩

theorem maintenance_drop_oversize_refs (cfg : FaviconCacheConfig)
    (db : DBState Δ)
    (h : ∀ b ∈ db.blobs, ∃ m ∈ db.blob_map, m.sha256 = b.sha256) :
    ∀ b ∈ (maintenance_drop_oversize cfg db).blobs,
      ∃ m ∈ (maintenance_drop_oversize cfg db).blob_map, m.sha256 = b.sha256 := by
  intro b hb
  by_cases hc : cfg.LIMIT_TOTAL_BYTES < total_bytes db
  · simp only [maintenance_drop_oversize, if_pos hc] at hb ⊢
    by_cases hemp : (selectDropList (iterBlobsSha256BytesC db)
        (total_bytes db - cfg.LIMIT_TOTAL_BYTES)).isEmpty = true
    · simp only [if_pos hemp] at hb ⊢
      exact h b hb
    · simp only [if_neg hemp] at hb ⊢
      obtain ⟨hb0, hnot⟩ := List.mem_filter.mp hb
      obtain ⟨m, hm, he⟩ := h b hb0
      refine ⟨m, List.mem_filter.mpr ⟨hm, ?_⟩, he⟩
      simpa [he] using hnot
  · simp only [maintenance_drop_oversize, if_neg hc] at hb ⊢
    exact h b hb

/-- C5 amended: after a maintenance run, every mapping row older than the
hold time is removed (all remaining rows are non-aged), and every blob row
with zero remaining referencing mapping rows is removed (no orphan remains).
A blob still referenced by a non-aged mapping row survives the age and
orphan steps, and is guaranteed to survive the whole run provided the total
blob bytes remaining after those steps do not exceed the configured limit;
when the limit is exceeded, the size-eviction step may delete blobs that are
still referenced by non-aged mappings (see the C5 counterexample). -/
theorem C5_amended (cfg : FaviconCacheConfig) (db : DBState Δ) (now : Int)
    (force : Bool)
    (hrun : force = true ∨ ¬ (now < next_maintenance_time cfg db)) :
    (∀ m ∈ (maintenance cfg db now force).blob_map,
        ¬ (m.m_time < now - cfg.HOLD_TIME))
  ∧ (∀ b ∈ (maintenance cfg db now force).blobs,
        ∃ m ∈ (maintenance cfg db now force).blob_map, m.sha256 = b.sha256)
  ∧ (total_bytes (maintenance_steps12 cfg db now) ≤ cfg.LIMIT_TOTAL_BYTES →
        ∀ b ∈ db.blobs,
          (∃ m ∈ db.blob_map, m.sha256 = b.sha256
              ∧ ¬ (m.m_time < now - cfg.HOLD_TIME)) →
          b ∈ (maintenance cfg db now force).blobs) := by
  rw [maintenance_runs_eq cfg db now force hrun]
  refine ⟨?_, maintenance_drop_oversize_refs cfg _
    (maintenance_drop_leftover_refs _), ?_⟩
  · intro m hm
    have hm2 := maintenance_drop_oversize_blob_map_subset cfg _ m hm
    have := (List.mem_filter.mp hm2).2
    simpa using this
  · intro hle b hb hex
    obtain ⟨m, hm, hsha, hna⟩ := hex
    rw [maintenance_drop_oversize_noop cfg _ (Nat.not_lt.mpr hle)]
    refine List.mem_filter.mpr ⟨hb, ?_⟩
    exact List.any_eq_true.mpr
      ⟨m, List.mem_filter.mpr ⟨hm, by simpa using hna⟩, by simp [hsha]⟩

/-- C5 witness: the amended statement, instantiated on the reachable state
`dbSixty` with a forced maintenance run at t=2. -/
theorem C5_witness :
    (∀ m ∈ (maintenance cfg60 dbSixty 2 true).blob_map,
        ¬ (m.m_time < 2 - cfg60.HOLD_TIME))
  ∧ (∀ b ∈ (maintenance cfg60 dbSixty 2 true).blobs,
        ∃ m ∈ (maintenance cfg60 dbSixty 2 true).blob_map, m.sha256 = b.sha256)
  ∧ (total_bytes (maintenance_steps12 cfg60 dbSixty 2) ≤ cfg60.LIMIT_TOTAL_BYTES →
        ∀ b ∈ dbSixty.blobs,
          (∃ m ∈ dbSixty.blob_map, m.sha256 = b.sha256
              ∧ ¬ (m.m_time < 2 - cfg60.HOLD_TIME)) →
          b ∈ (maintenance cfg60 dbSixty 2 true).blobs) :=
  C5_amended cfg60 dbSixty 2 true (Or.inl rfl)

/-- C1 amended: store-then-lookup of non-null data within the per-blob
ceiling with a non-null mime returns exactly PositiveHit(data, mime) in the
SQLite backend provided no blob row with the same content digest but a
different mime or data already exists (otherwise the first-stored blob's
mime is returned, as digest deduplication never overwrites a blob row), and
in the in-memory backend provided the data is not the sentinel byte string
FALLBACK_ICON (which lookup translates back to None); the null backend
stores nothing and its lookup always returns Miss. -/
theorem C1_amended (hash : Bytes → Δ) (FALLBACK_SHA : Δ) :
    (∀ (cfg : FaviconCacheConfig) (db : DBState Δ) (now : Int) (r a mi : String)
        (d : Bytes),
        (∀ b ∈ db.blobs, b.sha256 = hash d → b.mime = mi ∧ b.data = d) →
        hash d ≠ FALLBACK_SHA →
        d.length ≤ cfg.BLOB_MAX_BYTES →
        (FaviconCacheSQLite.set hash FALLBACK_SHA cfg db now r a (some mi) (some d)).2 = true
          ∧ (FaviconCacheSQLite.call FALLBACK_SHA
              (FaviconCacheSQLite.set hash FALLBACK_SHA cfg db now r a (some mi) (some d)).1
              r a).2 = some (some d, some mi))
  ∧ (∀ (s : MemState Δ) (r a mi : String) (d : Bytes), d ≠ FALLBACK_ICON →
      (FaviconCacheMEM.call (FaviconCacheMEM.set hash s r a (some mi) (some d)).1 r a).2
        = some (some d, some mi))
  ∧ (∀ (r a : String) (mi : Option String) (d : Option Bytes),
      FaviconCacheNull.set r a mi d = none ∧ FaviconCacheNull.call r a = none) := by
  refine ⟨?_, ?_, fun r a mi d => ⟨rfl, rfl⟩⟩
  · intro cfg db now r a mi d hblobs hfb hlen
    have hg1 : ¬((some d : Option Bytes) ≠ none ∧ (some mi : Option String) = none) := by simp
    have hg2 : ¬ (cfg.BLOB_MAX_BYTES < ((some d : Option Bytes).getD []).length) := by
      simpa using Nat.not_lt.mpr hlen
    have hset : FaviconCacheSQLite.set hash FALLBACK_SHA cfg db now r a (some mi) (some d)
        = (sql_insert_blob_map
            (sql_insert_blobs
              (if cfg.MAINTENANCE_MODE = "auto" ∧ next_maintenance_time cfg db < now
               then maintenance cfg db now false else db)
              (hash d) d.length mi d)
            now (hash d) r a, true) := by
      simp only [FaviconCacheSQLite.set]
      rw [if_neg hg1, if_neg hg2, if_pos hfb]
      simp only [Option.getD_some]
    refine ⟨by rw [hset], ?_⟩
    rw [hset]
    obtain ⟨mr, hfind, hsha⟩ := find?_upsertBlobMapRows_self now (hash d) r a
      (sql_insert_blobs
        (if cfg.MAINTENANCE_MODE = "auto" ∧ next_maintenance_time cfg db < now
         then maintenance cfg db now false else db)
        (hash d) d.length mi d).blob_map
    simp only [FaviconCacheSQLite.call, sql_insert_blob_map, hfind]
    rw [hsha, if_neg hfb]
    obtain ⟨b, hbfind, hbsha, hbcase⟩ := find?_sql_insert_blobs
      (if cfg.MAINTENANCE_MODE = "auto" ∧ next_maintenance_time cfg db < now
       then maintenance cfg db now false else db)
      (hash d) d.length mi d
    simp only [hbfind]
    rcases hbcase with hmem | heq
    · have hb0 : b ∈ db.blobs := by
        by_cases hM : cfg.MAINTENANCE_MODE = "auto" ∧ next_maintenance_time cfg db < now
        · exact maintenance_blobs_subset cfg db now false b (by simpa [if_pos hM] using hmem)
        · simpa [if_neg hM] using hmem
      obtain ⟨hmime, hdata⟩ := hblobs b hb0 hbsha
      simp [hmime, hdata]
    · simp [heq]
  · intro s r a mi d hd
    simp [FaviconCacheMEM.set, FaviconCacheMEM.call, dictGet_dictSet_self, hd]

/-- C1 witness: a concrete store-then-lookup roundtrip through the SQLite
backend (from the empty database) and through the in-memory backend returns
exactly the stored data and mime. -/
theorem C1_witness :
    ((FaviconCacheSQLite.set hashW fbW cfgOff (DBState.empty 0) 0 "r" "a"
        (some "image/png") (some bytesA)).2 = true
      ∧ (FaviconCacheSQLite.call fbW
          (FaviconCacheSQLite.set hashW fbW cfgOff (DBState.empty 0) 0 "r" "a"
            (some "image/png") (some bytesA)).1 "r" "a").2
        = some (some bytesA, some "image/png"))
  ∧ (FaviconCacheMEM.call
        (FaviconCacheMEM.set hashW MemState.empty "r" "a" (some "image/png")
          (some bytesA)).1 "r" "a").2 = some (some bytesA, some "image/png") := by
  constructor
  · exact (C1_amended hashW fbW).1 cfgOff (DBState.empty 0) 0 "r" "a" "image/png" bytesA
      (by decide) (by decide) (by decide)
  · exact (C1_amended hashW fbW).2.1 MemState.empty "r" "a" "image/png" bytesA (by decide)

/-- C3 amended: in the SQLite backend, store(key, mime, null) records the
sentinel and a subsequent lookup of the key returns NegativeHit; a lookup of
a key with no mapping row returns Miss.  The in-memory backend behaves the
same, except that "never stored" must be read on the rendered dictionary key
string "resolver:authority" (distinct logical keys can collide on it, see
the C3 counterexample).  The null backend returns Miss in both situations.
Miss, NegativeHit and PositiveHit are mutually distinguishable. -/
theorem C3_amended (hash : Bytes → Δ) (FALLBACK_SHA : Δ) :
    (∀ (cfg : FaviconCacheConfig) (db : DBState Δ) (now : Int) (r a : String)
        (mime : Option String),
        (FaviconCacheSQLite.set hash FALLBACK_SHA cfg db now r a mime none).2 = true
          ∧ (FaviconCacheSQLite.call FALLBACK_SHA
              (FaviconCacheSQLite.set hash FALLBACK_SHA cfg db now r a mime none).1
              r a).2 = some (none, none))
  ∧ (∀ (db : DBState Δ) (r a : String),
        (∀ m ∈ db.blob_map, ¬(m.resolver = r ∧ m.authority = a)) →
        (FaviconCacheSQLite.call FALLBACK_SHA db r a).2 = none)
  ∧ (∀ (s : MemState Δ) (r a : String) (mime : Option String),
        (FaviconCacheMEM.call (FaviconCacheMEM.set hash s r a mime none).1 r a).2
          = some (none, none))
  ∧ (∀ (s : MemState Δ) (r a : String),
        (∀ p ∈ s._sha_mime, p.1 ≠ memKey r a) →
        (FaviconCacheMEM.call s r a).2 = none)
  ∧ (∀ (r a : String) (mime : Option String) (d : Option Bytes),
        FaviconCacheNull.set r a mime d = none ∧ FaviconCacheNull.call r a = none)
  ∧ (∀ (d : Bytes) (mm : String),
        (none : Option (Option Bytes × Option String)) ≠ some (none, none)
      ∧ (some (none, none) : Option (Option Bytes × Option String))
          ≠ some (some d, some mm)
      ∧ (none : Option (Option Bytes × Option String)) ≠ some (some d, some mm)) := by
  refine ⟨?_, ?_, ?_, ?_, fun r a mime d => ⟨rfl, rfl⟩,
    fun d mm => ⟨by simp, by simp, by simp⟩⟩
  · intro cfg db now r a mime
    have hg1 : ¬((none : Option Bytes) ≠ none ∧ mime = none) := by simp
    have hg2 : ¬ (cfg.BLOB_MAX_BYTES < ((none : Option Bytes).getD []).length) := by simp
    have hset : FaviconCacheSQLite.set hash FALLBACK_SHA cfg db now r a mime none
        = (sql_insert_blob_map
            (if cfg.MAINTENANCE_MODE = "auto" ∧ next_maintenance_time cfg db < now
             then maintenance cfg db now false else db)
            now FALLBACK_SHA r a, true) := by
      simp only [FaviconCacheSQLite.set]
      rw [if_neg hg1, if_neg hg2, if_neg (by simp)]
    refine ⟨by rw [hset], ?_⟩
    rw [hset]
    obtain ⟨mr, hfind, hsha⟩ := find?_upsertBlobMapRows_self now FALLBACK_SHA r a
      (if cfg.MAINTENANCE_MODE = "auto" ∧ next_maintenance_time cfg db < now
       then maintenance cfg db now false else db).blob_map
    simp only [FaviconCacheSQLite.call, sql_insert_blob_map, hfind]
    rw [if_pos hsha]
  · intro db r a h
    have hnone : db.blob_map.find?
        (fun m => decide (m.resolver = r ∧ m.authority = a)) = none := by
      rw [List.find?_eq_none]
      intro m hm
      simpa using h m hm
    simp only [FaviconCacheSQLite.call, hnone]
  · intro s r a mime
    simp [FaviconCacheMEM.set, FaviconCacheMEM.call, dictGet_dictSet_self]
  · intro s r a h
    have hnone : dictGet (memKey r a) s._sha_mime = none := by
      unfold dictGet
      rw [List.find?_eq_none.mpr (fun p hp => by simpa using h p hp)]
      rfl
    simp only [FaviconCacheMEM.call, hnone]

/-- C3 witness: concrete NegativeHit and Miss results for the SQLite and
in-memory backends, from populated reachable states. -/
theorem C3_witness :
    ((FaviconCacheSQLite.set hashW fbW cfgOff dbMime 5 "r" "n" none none).2 = true
      ∧ (FaviconCacheSQLite.call fbW
          (FaviconCacheSQLite.set hashW fbW cfgOff dbMime 5 "r" "n" none none).1
          "r" "n").2 = some (none, none))
  ∧ (FaviconCacheSQLite.call fbW dbMime "q" "q").2 = none
  ∧ (FaviconCacheMEM.call
        (FaviconCacheMEM.set hashW MemState.empty "r" "n" none none).1 "r" "n").2
      = some (none, none)
  ∧ (FaviconCacheMEM.call memCollide "q" "q").2 = none := by
  refine ⟨?_, ?_, ?_, ?_⟩
  · exact (C3_amended hashW fbW).1 cfgOff dbMime 5 "r" "n" none
  · exact (C3_amended hashW fbW).2.1 dbMime "q" "q" (by decide)
  · exact (C3_amended hashW fbW).2.2.1 MemState.empty "r" "n" none
  · exact (C3_amended hashW fbW).2.2.2.1 memCollide "q" "q" (by decide)

/-- C7 amended: the SQLite backend rejects oversize content — store returns
False and leaves exactly the state that the due-maintenance step alone
produced (no blob or mapping entry is created or modified for the key).  The
in-memory backend does not enforce the per-blob ceiling: it stores content of
any size, and its store returns None rather than a boolean failure.  The
null backend's store also returns None and persists nothing. -/
theorem C7_amended (hash : Bytes → Δ) (FALLBACK_SHA : Δ) :
    (∀ (cfg : FaviconCacheConfig) (db : DBState Δ) (now : Int) (r a : String)
        (mime : Option String) (d : Bytes),
        cfg.BLOB_MAX_BYTES < d.length →
        FaviconCacheSQLite.set hash FALLBACK_SHA cfg db now r a mime (some d)
          = (if cfg.MAINTENANCE_MODE = "auto" ∧ next_maintenance_time cfg db < now
             then maintenance cfg db now false else db, false))
  ∧ (∀ (s : MemState Δ) (r a mi : String) (d : Bytes), d ≠ FALLBACK_ICON →
        (FaviconCacheMEM.set hash s r a (some mi) (some d)).2 = none
          ∧ (FaviconCacheMEM.call (FaviconCacheMEM.set hash s r a (some mi) (some d)).1
              r a).2 = some (some d, some mi))
  ∧ (∀ (r a : String) (mime : Option String) (d : Option Bytes),
        FaviconCacheNull.set r a mime d = none) := by
  refine ⟨?_, ?_, fun r a mime d => rfl⟩
  · intro cfg db now r a mime d h
    rcases mime with _ | m
    · simp [FaviconCacheSQLite.set]
    · simp [FaviconCacheSQLite.set, h]
  · intro s r a mi d hd
    refine ⟨rfl, ?_⟩
    simp [FaviconCacheMEM.set, FaviconCacheMEM.call, dictGet_dictSet_self, hd]

/-- C7 witness: an oversize store through the SQLite backend returns False
and changes nothing when maintenance is off, while the in-memory backend
stores the same oversize content. -/
theorem C7_witness :
    FaviconCacheSQLite.set hashW fbW cfgTiny (DBState.empty 0 : DBState ΔW) 0 "r" "a"
        (some "image/png") (some [9, 9])
      = (if cfgTiny.MAINTENANCE_MODE = "auto"
            ∧ next_maintenance_time cfgTiny (DBState.empty 0 : DBState ΔW) < 0
         then maintenance cfgTiny (DBState.empty 0 : DBState ΔW) 0 false
         else (DBState.empty 0 : DBState ΔW), false)
  ∧ ((FaviconCacheMEM.set hashW MemState.empty "r" "a" (some "image/png")
        (some [9, 9])).2 = none
      ∧ (FaviconCacheMEM.call
          (FaviconCacheMEM.set hashW MemState.empty "r" "a" (some "image/png")
            (some [9, 9])).1 "r" "a").2 = some (some [9, 9], some "image/png")) := by
  constructor
  · exact (C7_amended hashW fbW).1 cfgTiny (DBState.empty 0 : DBState ΔW) 0 "r" "a"
      (some "image/png") [9, 9] (by decide)
  · exact (C7_amended hashW fbW).2.1 MemState.empty "r" "a" "image/png" [9, 9] (by decide)

/-! ### Deduplication lemmas (claim C6) -/

theorem sql_insert_blobs_existing (db : DBState Δ) (sha : Δ) (bc : Nat)
    (mime : String) (data : Bytes)
    (h : db.blobs.any (fun b => decide (b.sha256 = sha)) = true) :
    sql_insert_blobs db sha bc mime data = db := by
  simp [sql_insert_blobs, h]

theorem sql_insert_blobs_count_new (db : DBState Δ) (sha : Δ) (bc : Nat)
    (mime : String) (data : Bytes) (h : ∀ b ∈ db.blobs, b.sha256 ≠ sha) :
    ((sql_insert_blobs db sha bc mime data).blobs.filter
      (fun b => decide (b.sha256 = sha))).length = 1 := by
  have hany : db.blobs.any (fun b => decide (b.sha256 = sha)) = false :=
    List.any_eq_false.mpr (fun b hb => by simpa using h b hb)
  simp only [sql_insert_blobs, hany, Bool.false_eq_true, if_false]
  rw [List.filter_append, List.filter_eq_nil_iff.mpr (fun b hb => by simpa using h b hb)]
  simp

theorem dictSet_count_new {κ α : Type} [DecidableEq κ] (k : κ) (v : α)
    (l : List (κ × α)) (h : ∀ p ∈ l, p.1 ≠ k) :
    ((dictSet k v l).filter (fun p => decide (p.1 = k))).length = 1 := by
  induction l with
  | nil => simp [dictSet]
  | cons p ps ih =>
    have hp : ¬ p.1 = k := h p (List.mem_cons_self _ _)
    rw [dictSet, if_neg hp]
    rw [List.filter_cons_of_neg (by simpa using hp)]
    exact ih (fun q hq => h q (List.mem_cons_of_mem _ hq))

theorem dictSet_count_one {κ α : Type} [DecidableEq κ] (k : κ) (v : α)
    (l : List (κ × α))
    (h : (l.filter (fun p => decide (p.1 = k))).length = 1) :
    ((dictSet k v l).filter (fun p => decide (p.1 = k))).length = 1 := by
  induction l with
  | nil => simp at h
  | cons p ps ih =>
    by_cases hp : p.1 = k
    · rw [dictSet, if_pos hp]
      rw [List.filter_cons_of_pos (by simpa using hp)] at h
      rw [List.filter_cons_of_pos (by simp)]
      simpa using h
    · rw [dictSet, if_neg hp]
      rw [List.filter_cons_of_neg (by simpa using hp)] at h
      rw [List.filter_cons_of_neg (by simpa using hp)]
      exact ih h

theorem sql_insert_blobs_blob_map (db : DBState Δ) (sha : Δ) (bc : Nat)
    (mime : String) (data : Bytes) :
    (sql_insert_blobs db sha bc mime data).blob_map = db.blob_map := by
  unfold sql_insert_blobs
  split <;> rfl

theorem set_valid_eq (hash : Bytes → Δ) (FALLBACK_SHA : Δ)
    (cfg : FaviconCacheConfig) (db : DBState Δ) (now : Int) (r a mi : String)
    (d : Bytes)
    (hmode : ¬(cfg.MAINTENANCE_MODE = "auto" ∧ next_maintenance_time cfg db < now))
    (hfb : hash d ≠ FALLBACK_SHA) (hlen : d.length ≤ cfg.BLOB_MAX_BYTES) :
    FaviconCacheSQLite.set hash FALLBACK_SHA cfg db now r a (some mi) (some d)
      = (sql_insert_blob_map (sql_insert_blobs db (hash d) d.length mi d)
          now (hash d) r a, true) := by
  simp only [FaviconCacheSQLite.set]
  rw [if_neg hmode,
    if_neg (show ¬((some d : Option Bytes) ≠ none
      ∧ (some mi : Option String) = none) by simp),
    if_neg (show ¬(cfg.BLOB_MAX_BYTES < ((some d : Option Bytes).getD []).length) by
      simpa using Nat.not_lt.mpr hlen),
    if_pos hfb]
  simp only [Option.getD_some]

/-- C6: storing identical byte content under two distinct logical keys
creates exactly one blob row, shared by both keys' mappings.  Proved for the
SQLite backend (content novel to the store, stores succeeding, no automatic
maintenance interleaved) and for the in-memory backend (content novel, on
distinct rendered keys). -/
theorem C6_content_dedup (hash : Bytes → Δ) (FALLBACK_SHA : Δ) :
    (∀ (cfg : FaviconCacheConfig) (db : DBState Δ) (now1 now2 : Int)
        (r1 a1 r2 a2 m1 m2 : String) (d : Bytes),
        cfg.MAINTENANCE_MODE ≠ "auto" →
        ¬(r2 = r1 ∧ a2 = a1) →
        hash d ≠ FALLBACK_SHA →
        d.length ≤ cfg.BLOB_MAX_BYTES →
        (∀ b ∈ db.blobs, b.sha256 ≠ hash d) →
        (FaviconCacheSQLite.set hash FALLBACK_SHA cfg db now1 r1 a1 (some m1) (some d)).2 = true
        ∧ (FaviconCacheSQLite.set hash FALLBACK_SHA cfg
            (FaviconCacheSQLite.set hash FALLBACK_SHA cfg db now1 r1 a1 (some m1) (some d)).1
            now2 r2 a2 (some m2) (some d)).2 = true
        ∧ (((FaviconCacheSQLite.set hash FALLBACK_SHA cfg
              (FaviconCacheSQLite.set hash FALLBACK_SHA cfg db now1 r1 a1 (some m1) (some d)).1
              now2 r2 a2 (some m2) (some d)).1.blobs.filter
                (fun b => decide (b.sha256 = hash d))).length = 1)
        ∧ (∃ mr, (FaviconCacheSQLite.set hash FALLBACK_SHA cfg
              (FaviconCacheSQLite.set hash FALLBACK_SHA cfg db now1 r1 a1 (some m1) (some d)).1
              now2 r2 a2 (some m2) (some d)).1.blob_map.find?
                (fun m => decide (m.resolver = r1 ∧ m.authority = a1)) = some mr
            ∧ mr.sha256 = hash d)
        ∧ (∃ mr, (FaviconCacheSQLite.set hash FALLBACK_SHA cfg
              (FaviconCacheSQLite.set hash FALLBACK_SHA cfg db now1 r1 a1 (some m1) (some d)).1
              now2 r2 a2 (some m2) (some d)).1.blob_map.find?
                (fun m => decide (m.resolver = r2 ∧ m.authority = a2)) = some mr
            ∧ mr.sha256 = hash d))
  ∧ (∀ (s : MemState Δ) (r1 a1 r2 a2 m1 m2 : String) (d : Bytes),
        memKey r1 a1 ≠ memKey r2 a2 →
        (∀ p ∈ s._data, p.1 ≠ hash d) →
        (((FaviconCacheMEM.set hash
              (FaviconCacheMEM.set hash s r1 a1 (some m1) (some d)).1
              r2 a2 (some m2) (some d)).1._data.filter
                (fun p => decide (p.1 = hash d))).length = 1)
        ∧ dictGet (memKey r1 a1)
            (FaviconCacheMEM.set hash
              (FaviconCacheMEM.set hash s r1 a1 (some m1) (some d)).1
              r2 a2 (some m2) (some d)).1._sha_mime = some (hash d, some m1)
        ∧ dictGet (memKey r2 a2)
            (FaviconCacheMEM.set hash
              (FaviconCacheMEM.set hash s r1 a1 (some m1) (some d)).1
              r2 a2 (some m2) (some d)).1._sha_mime = some (hash d, some m2)) := by
  constructor
  · intro cfg db now1 now2 r1 a1 r2 a2 m1 m2 d hmode hkeys hfb hlen hnew
    have hm1 : ¬(cfg.MAINTENANCE_MODE = "auto"
        ∧ next_maintenance_time cfg db < now1) := fun hc => hmode hc.1
    have hset1 := set_valid_eq hash FALLBACK_SHA cfg db now1 r1 a1 m1 d hm1 hfb hlen
    have hm2 : ¬(cfg.MAINTENANCE_MODE = "auto"
        ∧ next_maintenance_time cfg
            (sql_insert_blob_map (sql_insert_blobs db (hash d) d.length m1 d)
              now1 (hash d) r1 a1) < now2) := fun hc => hmode hc.1
    have hset2 := set_valid_eq hash FALLBACK_SHA cfg
      (sql_insert_blob_map (sql_insert_blobs db (hash d) d.length m1 d)
        now1 (hash d) r1 a1)
      now2 r2 a2 m2 d hm2 hfb hlen
    have hany : (sql_insert_blob_map (sql_insert_blobs db (hash d) d.length m1 d)
        now1 (hash d) r1 a1).blobs.any (fun b => decide (b.sha256 = hash d)) = true := by
      obtain ⟨b, hb, hbe⟩ := sql_insert_blobs_exists db (hash d) d.length m1 d
      exact List.any_eq_true.mpr ⟨b, hb, by simpa using hbe⟩
    have hins2 : sql_insert_blobs
        (sql_insert_blob_map (sql_insert_blobs db (hash d) d.length m1 d)
          now1 (hash d) r1 a1)
        (hash d) d.length m2 d
        = sql_insert_blob_map (sql_insert_blobs db (hash d) d.length m1 d)
            now1 (hash d) r1 a1 :=
      sql_insert_blobs_existing _ _ _ _ _ hany
    rw [hset1]
    refine ⟨rfl, ?_, ?_, ?_, ?_⟩
    · rw [hset2]
    · rw [hset2]
      show ((sql_insert_blobs
          (sql_insert_blob_map (sql_insert_blobs db (hash d) d.length m1 d)
            now1 (hash d) r1 a1) (hash d) d.length m2 d).blobs.filter
        (fun b => decide (b.sha256 = hash d))).length = 1
      rw [hins2]
      show ((sql_insert_blobs db (hash d) d.length m1 d).blobs.filter
        (fun b => decide (b.sha256 = hash d))).length = 1
      exact sql_insert_blobs_count_new db (hash d) d.length m1 d hnew
    · rw [hset2]
      show ∃ mr, (upsertBlobMapRows now2 (hash d) r2 a2
          (sql_insert_blobs
            (sql_insert_blob_map (sql_insert_blobs db (hash d) d.length m1 d)
              now1 (hash d) r1 a1) (hash d) d.length m2 d).blob_map).find?
          (fun m => decide (m.resolver = r1 ∧ m.authority = a1)) = some mr
        ∧ mr.sha256 = hash d
      rw [find?_upsertBlobMapRows_other now2 (hash d) r2 a2 r1 a1 hkeys,
        sql_insert_blobs_blob_map]
      show ∃ mr, (upsertBlobMapRows now1 (hash d) r1 a1
          (sql_insert_blobs db (hash d) d.length m1 d).blob_map).find?
          (fun m => decide (m.resolver = r1 ∧ m.authority = a1)) = some mr
        ∧ mr.sha256 = hash d
      exact find?_upsertBlobMapRows_self now1 (hash d) r1 a1 _
    · rw [hset2]
      show ∃ mr, (upsertBlobMapRows now2 (hash d) r2 a2
          (sql_insert_blobs
            (sql_insert_blob_map (sql_insert_blobs db (hash d) d.length m1 d)
              now1 (hash d) r1 a1) (hash d) d.length m2 d).blob_map).find?
          (fun m => decide (m.resolver = r2 ∧ m.authority = a2)) = some mr
        ∧ mr.sha256 = hash d
      exact find?_upsertBlobMapRows_self now2 (hash d) r2 a2 _
  · intro s r1 a1 r2 a2 m1 m2 d hkeys hnew
    refine ⟨?_, ?_, ?_⟩
    · show ((dictSet (hash d) d (dictSet (hash d) d s._data)).filter
        (fun p => decide (p.1 = hash d))).length = 1
      exact dictSet_count_one (hash d) d _ (dictSet_count_new (hash d) d s._data hnew)
    · show dictGet (memKey r1 a1) (dictSet (memKey r2 a2) (hash d, some m2)
        (dictSet (memKey r1 a1) (hash d, some m1) s._sha_mime)) = some (hash d, some m1)
      rw [dictGet_dictSet_other _ _ _ _ hkeys, dictGet_dictSet_self]
    · show dictGet (memKey r2 a2) (dictSet (memKey r2 a2) (hash d, some m2)
        (dictSet (memKey r1 a1) (hash d, some m1) s._sha_mime)) = some (hash d, some m2)
      rw [dictGet_dictSet_self]

/-- C6 witness: storing the same 40-byte content under ("r","a") and
("r","b") leaves exactly one matching blob row in the SQLite backend and
exactly one matching blob-store entry in the in-memory backend. -/
theorem C6_witness :
    (((FaviconCacheSQLite.set hashW fbW cfgOff
        (FaviconCacheSQLite.set hashW fbW cfgOff (DBState.empty 0 : DBState ΔW)
          0 "r" "a" (some "image/png") (some bytesA)).1
        1 "r" "b" (some "image/png") (some bytesA)).1.blobs.filter
          (fun b => decide (b.sha256 = hashW bytesA))).length = 1)
  ∧ (((FaviconCacheMEM.set hashW
        (FaviconCacheMEM.set hashW (MemState.empty : MemState ΔW)
          "r" "a" (some "image/png") (some bytesA)).1
        "r" "b" (some "image/png") (some bytesA)).1._data.filter
          (fun p => decide (p.1 = hashW bytesA))).length = 1) := by
  constructor
  · exact ((C6_content_dedup hashW fbW).1 cfgOff (DBState.empty 0) 0 1 "r" "a" "r" "b"
      "image/png" "image/png" bytesA (by decide) (by decide) (by decide) (by decide)
      (by decide)).2.2.1
  · exact ((C6_content_dedup hashW fbW).2 MemState.empty "r" "a" "r" "b" "image/png"
      "image/png" bytesA (by decide) (by decide)).1

/-! ### Sorting, join and deduplication lemmas (claim C4) -/

theorem insertByMTime_perm (m : BlobMapRow Δ) (l : List (BlobMapRow Δ)) :
    (insertByMTime m l).Perm (m :: l) := by
  induction l with
  | nil => exact List.Perm.refl _
  | cons x xs ih =>
    rw [insertByMTime]
    split
    · exact List.Perm.refl _
    · exact (ih.cons x).trans (List.Perm.swap m x xs)

theorem sortByMTime_perm (l : List (BlobMapRow Δ)) : (sortByMTime l).Perm l := by
  induction l with
  | nil => exact List.Perm.refl _
  | cons x xs ih => exact (insertByMTime_perm x (sortByMTime xs)).trans (ih.cons x)

theorem joinRow_key (blobs : List (BlobsRow Δ)) (m : BlobMapRow Δ) (p : Δ × Nat)
    (hp : (blobs.find? (fun b => decide (b.sha256 = m.sha256))).map
      (fun b => (b.sha256, b.bytes_c)) = some p) : p.1 = m.sha256 := by
  cases hb : blobs.find? (fun b => decide (b.sha256 = m.sha256)) with
  | none => rw [hb] at hp; simp at hp
  | some b =>
    rw [hb] at hp
    simp only [Option.map_some'] at hp
    have hkey := List.find?_some hb
    rw [← Option.some.inj hp]
    simpa using hkey

theorem pairwise_keys_filterMap (blobs : List (BlobsRow Δ))
    (l : List (BlobMapRow Δ))
    (hl : l.Pairwise (fun m1 m2 => m1.sha256 ≠ m2.sha256)) :
    (l.filterMap (fun m => (blobs.find? (fun b => decide (b.sha256 = m.sha256))).map
      (fun b => (b.sha256, b.bytes_c)))).Pairwise (fun p q => p.1 ≠ q.1) := by
  induction hl with
  | nil => simp
  | @cons a l' hhead htail ih =>
    cases hf : (blobs.find? (fun b => decide (b.sha256 = a.sha256))).map
        (fun b => (b.sha256, b.bytes_c)) with
    | none =>
      rw [@List.filterMap_cons_none _ _
        (fun m => (blobs.find? (fun b => decide (b.sha256 = m.sha256))).map
          (fun b => (b.sha256, b.bytes_c))) a l' hf]
      exact ih
    | some p =>
      rw [@List.filterMap_cons_some _ _
        (fun m => (blobs.find? (fun b => decide (b.sha256 = m.sha256))).map
          (fun b => (b.sha256, b.bytes_c))) a l' p hf]
      refine List.pairwise_cons.mpr ⟨?_, ih⟩
      intro q hq
      obtain ⟨y, hy, hfy⟩ := List.mem_filterMap.mp hq
      rw [joinRow_key blobs a p hf, joinRow_key blobs y q hfy]
      exact hhead y hy

theorem pairwise_keys_iter (db : DBState Δ)
    (h : db.blob_map.Pairwise (fun m1 m2 => m1.sha256 ≠ m2.sha256)) :
    (iterBlobsSha256BytesC db).Pairwise (fun p q => p.1 ≠ q.1) := by
  have hs : (sortByMTime db.blob_map).Pairwise
      (fun m1 m2 => m1.sha256 ≠ m2.sha256) :=
    ((sortByMTime_perm db.blob_map).pairwise_iff (fun hxy => hxy.symm)).mpr h
  exact pairwise_keys_filterMap db.blobs (sortByMTime db.blob_map) hs

theorem dedupByShaAux_eq_self (l : List (Δ × Nat)) :
    ∀ seen, l.Pairwise (fun p q => p.1 ≠ q.1) → (∀ p ∈ l, p.1 ∉ seen) →
      dedupByShaAux seen l = l := by
  induction l with
  | nil => intro seen _ _; rfl
  | cons p ps ih =>
    intro seen hp hseen
    rw [dedupByShaAux, if_neg (hseen p (List.mem_cons_self _ _))]
    congr 1
    refine ih (p.1 :: seen) hp.of_cons ?_
    intro q hq
    simp only [List.mem_cons]
    rintro (h | h)
    · exact (List.pairwise_cons.mp hp).1 q hq h.symm
    · exact hseen q (List.mem_cons_of_mem _ hq) h

theorem dedupBySha_eq_self (l : List (Δ × Nat))
    (h : l.Pairwise (fun p q => p.1 ≠ q.1)) : dedupBySha l = l :=
  dedupByShaAux_eq_self l [] h (by simp)

theorem maintenance_drop_oversize_eq (cfg : FaviconCacheConfig) (db : DBState Δ)
    (h : cfg.LIMIT_TOTAL_BYTES < total_bytes db) :
    maintenance_drop_oversize cfg db
      = { db with
          blobs := db.blobs.filter (fun b => decide (b.sha256 ∉
            selectDropList (iterBlobsSha256BytesC db)
              (total_bytes db - cfg.LIMIT_TOTAL_BYTES))),
          blob_map := db.blob_map.filter (fun m => decide (m.sha256 ∉
            selectDropList (iterBlobsSha256BytesC db)
              (total_bytes db - cfg.LIMIT_TOTAL_BYTES))) } := by
  simp only [maintenance_drop_oversize, if_pos h]
  by_cases hemp : (selectDropList (iterBlobsSha256BytesC db)
      (total_bytes db - cfg.LIMIT_TOTAL_BYTES)).isEmpty = true
  · rw [if_pos hemp]
    have hnil := List.isEmpty_iff.mp hemp
    rw [hnil]
    have h1 : db.blobs.filter (fun b => decide (b.sha256 ∉ ([] : List Δ)))
        = db.blobs := List.filter_eq_self.mpr (fun b _ => by simp)
    have h2 : db.blob_map.filter (fun m => decide (m.sha256 ∉ ([] : List Δ)))
        = db.blob_map := List.filter_eq_self.mpr (fun m _ => by simp)
    rw [h1, h2]
  · rw [if_neg hemp]

/-- C4 amended: the size-bound eviction scans the (blob, mapping) join rows
ordered by the mapping's last-write time ascending — so a blob's byte count
is accumulated once per referencing mapping and its digest collected once
per referencing mapping — stopping once the accumulated count strictly
exceeds the excess over the limit, and deletes the collected blobs together
with their mapping rows.  When every remaining blob is referenced by at most
one mapping row (pairwise-distinct digests in the mapping table), this
coincides with the per-blob scan stated by the claim (`claimC4Statement`);
the spec's concrete scenario (limit 100, three distinct 40-byte contents
written at t=0,1,2, maintenance at t=3) evicts exactly the t=0 entry,
leaving 80 bytes. -/
theorem C4_amended :
    (∀ (cfg : FaviconCacheConfig) (db : DBState Δ) (now : Int),
        db.blob_map.Pairwise (fun m1 m2 => m1.sha256 ≠ m2.sha256) →
        claimC4Statement cfg db now)
  ∧ ((maintenance cfgOff dbScenario 3 true).blobs.map (fun b => b.bytes_c) = [40, 40]
      ∧ total_bytes (maintenance cfgOff dbScenario 3 true) = 80
      ∧ (maintenance cfgOff dbScenario 3 true).blob_map.map
          (fun m => (m.resolver, m.authority)) = [("r", "b"), ("r", "c")]
      ∧ (FaviconCacheSQLite.call fbW (maintenance cfgOff dbScenario 3 true) "r" "a").2
          = none
      ∧ (FaviconCacheSQLite.call fbW (maintenance cfgOff dbScenario 3 true) "r" "b").2
          = some (some bytesB, some "image/png")) := by
  constructor
  · intro cfg db now hp
    unfold claimC4Statement
    intro hlim
    set db2 := maintenance_steps12 cfg db now with hdb2
    have hp2 : db2.blob_map.Pairwise (fun m1 m2 => m1.sha256 ≠ m2.sha256) := by
      rw [hdb2]
      exact List.Pairwise.filter _ hp
    have hiter : (iterBlobsSha256BytesC db2).Pairwise (fun p q => p.1 ≠ q.1) :=
      pairwise_keys_iter db2 hp2
    have hspec : spec_select cfg db2
        = selectDropList (iterBlobsSha256BytesC db2)
            (total_bytes db2 - cfg.LIMIT_TOTAL_BYTES) := by
      unfold spec_select
      rw [dedupBySha_eq_self _ hiter]
    rw [maintenance_runs_eq cfg db now true (Or.inl rfl), ← hdb2,
      maintenance_drop_oversize_eq cfg db2 hlim, hspec]
    exact ⟨rfl, rfl⟩
  · refine ⟨by decide, by decide, by decide, by decide, by decide⟩

/-- C4 witness: the amended per-blob characterization holds on the reachable
state `dbSixty`, whose two blobs are each referenced by exactly one mapping
row. -/
theorem C4_witness : claimC4Statement cfg60 dbSixty 2 :=
  C4_amended.1 cfg60 dbSixty 2 (by decide)
